import Mathlib

/-!
Verification of the banking document-QA pipeline
(q1_banking_assistant): shallow embedding of the chunker
(document_processor.py), vector store (vector_store.py), LLM manager
(llm_manager.py), retrieval chain (retrieval_chain.py) and assistant
facade (banking_assistant.py), followed by theorems settling the
specification claims.

Text is modelled as `List Char`; Python strings raised as exceptions are
modelled with `Except`; external capabilities (embedding search, LLM,
`json.loads`) are parameters collected in an `Env` record, and every call
to such a capability is logged in a `CapCall` trace so that claims about
"capability not invoked" are statable.
-/

namespace Banking

/-- Char-list view of a Lean string literal. -/
def str (s : String) : List Char := s.data

/-- The apostrophe character, kept out of string literals. -/
def apos : List Char := [Char.ofNat 39]

/-- Python `str.strip()`: drop leading and trailing whitespace.
(Whitespace is modelled by `Char.isWhitespace`, which covers the ASCII
whitespace all the repository's fixed strings use.) -/
def pyStrip (s : List Char) : List Char :=
  ((s.dropWhile Char.isWhitespace).reverse.dropWhile Char.isWhitespace).reverse

/-- The non-whitespace characters of a text, in order. -/
def filterNW (s : List Char) : List Char :=
  s.filter (fun c => !c.isWhitespace)

/-- Python slice `content[a:b]`. -/
def slice (content : List Char) (a b : Nat) : List Char :=
  (content.take b).drop a

/-- Python substring test `needle in hay`. -/
def hasSub (needle : List Char) : List Char → Bool
  | [] => needle.isEmpty
  | c :: rest => needle.isPrefixOf (c :: rest) || hasSub needle rest

/-- Python `str.lower()` (ASCII, which covers the fixed keyword set). -/
def lowerChars (s : List Char) : List Char := s.map Char.toLower

/-- Metadata dictionary attached to a chunk.  The fields are exactly the
keys the source reads or writes (`document_processor.py` writes
`chunk_id`, `file_path`, `file_name`, `content_type`, `table_id`,
`upload_date`, `total_chunks`; `retrieval_chain.py` reads `file_path`,
`source`, `page`, `content_type`; `vector_store.py` reads `file_path`).
`Option` models key absence in the dict. -/
structure Metadata where
  file_path : Option String := none
  file_name : Option String := none
  source : Option String := none
  page : Option Nat := none
  content_type : Option String := none
  chunk_id : Option Nat := none
  table_id : Option (List Char) := none
  upload_date : Option String := none
  total_chunks : Option Nat := none
deriving DecidableEq

/-- A langchain `Document`: page content plus metadata. -/
structure Document where
  page_content : List Char
  metadata : Metadata
deriving DecidableEq

/-- Concatenated page contents of a chunk list, used to state the
re-concatenation invariant. -/
def contentOf (docs : List Document) : List Char :=
  (docs.map (·.page_content)).flatten

/-! ## Chunker (`document_processor.py`) -/

/-- One entry of the `tables` list built by
`BankingDocumentProcessor._extract_tables`: the matched text
(`match.group(0)`) and its offsets (`match.start()`, `match.end()`).
`_extract_tables` guarantees `text = slice content start_pos end_pos`;
theorems that need this state it as a hypothesis. -/
structure TableRegion where
  text : List Char
  start_pos : Nat
  end_pos : Nat
deriving DecidableEq

/-- Parameters of `_chunk_with_tables` that are fixed for one call:
the text splitter (`RecursiveCharacterTextSplitter.split_text`, an
external library routine, taken as a parameter; claims about overlap
trimming constrain it by hypothesis), the loaded document's base
metadata (`**doc.metadata`), and the `file_path` / `file_name` /
`upload_timestamp` arguments. -/
structure SplitCfg where
  split : List Char → List (List Char)
  base : Metadata
  fp : String
  fn : String
  ts : String

/-- Metadata of a text chunk emitted by `_chunk_with_tables`. -/
def textChunkMeta (cfg : SplitCfg) (cid : Nat) : Metadata :=
  { cfg.base with
    chunk_id := some cid
    file_path := some cfg.fp
    file_name := some cfg.fn
    content_type := some "text"
    upload_date := some cfg.ts }

/-- Metadata of a table chunk emitted by `_chunk_with_tables`
(`table_id` is the string `table_{len(chunks)}`). -/
def tableChunkMeta (cfg : SplitCfg) (cid : Nat) : Metadata :=
  { cfg.base with
    chunk_id := some cid
    file_path := some cfg.fp
    file_name := some cfg.fn
    content_type := some "table"
    table_id := some (str "table_" ++ str (toString cid))
    upload_date := some cfg.ts }

/-- A text chunk `Document(page_content=chunk, metadata=...)`. -/
def textDoc (cfg : SplitCfg) (cid : Nat) (c : List Char) : Document :=
  ⟨c, textChunkMeta cfg cid⟩

/-- A table chunk `Document(page_content=table['text'], metadata=...)`. -/
def tableDoc (cfg : SplitCfg) (cid : Nat) (c : List Char) : Document :=
  ⟨c, tableChunkMeta cfg cid⟩

/-- The `pre_table_text` / `remaining_text` handling of
`_chunk_with_tables`: strip the span, skip it when falsy, otherwise run
the splitter and append one text chunk per piece, each with
`chunk_id = len(chunks)` at append time. -/
def addTextChunks (cfg : SplitCfg) (acc : List Document) (span : List Char) :
    List Document :=
  let stripped := pyStrip span
  if stripped.isEmpty then acc
  else (cfg.split stripped).foldl (fun a c => a ++ [textDoc cfg a.length c]) acc

/-- The main loop of `_chunk_with_tables` over the (sorted) table list,
carrying `current_pos` and the accumulated `chunks`; returns the chunk
list and the final `current_pos`. -/
def chunkLoop (cfg : SplitCfg) (content : List Char) :
    List TableRegion → Nat → List Document → List Document × Nat
  | [], current, acc => (acc, current)
  | t :: rest, current, acc =>
    let acc1 :=
      if current < t.start_pos then
        addTextChunks cfg acc (slice content current t.start_pos)
      else acc
    let acc2 := acc1 ++ [tableDoc cfg acc1.length t.text]
    chunkLoop cfg content rest t.end_pos acc2

/-- Insertion step of the stable sort: the new element goes after every
already-placed element whose key is less than or equal to its own. -/
def insertTR (t : TableRegion) : List TableRegion → List TableRegion
  | [] => [t]
  | u :: rest =>
    if u.start_pos ≤ t.start_pos then u :: insertTR t rest
    else t :: u :: rest

/-- Python `tables.sort(key=lambda x: x['start_pos'])`: a stable sort by
`start_pos`, modelled as left-to-right stable insertion sort. -/
def sortTables (tables : List TableRegion) : List TableRegion :=
  tables.foldl (fun acc t => insertTR t acc) []

/-- `BankingDocumentProcessor._chunk_with_tables`: sort the regions,
walk the text emitting split text chunks between regions and each region
verbatim as a single table chunk, then split whatever follows the last
region. -/
def chunk_with_tables (cfg : SplitCfg) (content : List Char)
    (tables : List TableRegion) : List Document :=
  let p := chunkLoop cfg content (sortTables tables) 0 []
  if p.2 < content.length then addTextChunks cfg p.1 (content.drop p.2)
  else p.1

/-- Test used to sort out the table chunks of an output. -/
def isTableChunk (d : Document) : Bool :=
  d.metadata.content_type == some "table"

/-- Disjointness of a region list, in order: each region starts at or
after `pos`, ends at or after it starts, and the rest is chained after
its end.  (`Bool`-valued so concrete instances evaluate.) -/
def chainedFrom : Nat → List TableRegion → Bool
  | _, [] => true
  | pos, t :: rest =>
    (pos ≤ t.start_pos : Bool) && (t.start_pos ≤ t.end_pos : Bool) &&
      chainedFrom t.end_pos rest

/-! ## Vector store (`vector_store.py`) -/

/-- `BankingVectorStore.get_all_documents`: fetch every stored entry and
keep the first `limit` of them (the loop breaks at `i >= limit`).  The
store itself is modelled as the list of stored chunks in insertion
order. -/
def get_all_documents (store : List Document) (limit : Nat) : List Document :=
  store.take limit

/-- `BankingVectorStore.delete_documents_by_source`: fetch the first
1000 entries (the `get_all_documents()` call uses the default limit),
keep those whose `file_path` metadata equals the argument, and delete
those entries.  The underlying `self.vector_store.delete(...)` call is
external (Chroma); it is modelled as removing the listed entries, one
occurrence each (`List.diff`).  The Python method returns `None`; the
embedding accordingly returns only the new store. -/
def delete_documents_by_source (store : List Document) (source_path : String) :
    List Document :=
  let all_docs := get_all_documents store 1000
  let docs_to_delete :=
    all_docs.filter (fun d => d.metadata.file_path == some source_path)
  store.diff docs_to_delete

/-! ## LLM manager (`llm_manager.py`) -/

/-- Parsed JSON value, the possible results of the external
`json.loads` call (the parser itself is Python's standard library and is
modelled as an abstract function in `Env`). -/
inductive JsonValue where
  | obj (fields : List (List Char × JsonValue))
  | arr (elems : List JsonValue)
  | strVal (s : List Char)
  | num (q : ℚ)
  | boolVal (b : Bool)
  | nullVal

/-- One call to an external capability, recorded in a trace:
`search` is `vector_store.similarity_search(query, k)`, `scoredSearch`
is `similarity_search_with_score(query, k)`, and `generate` is
`llm.invoke` on a prompt. -/
inductive CapCall where
  | search (query : List Char) (k : Nat)
  | scoredSearch (query : List Char) (k : Nat)
  | generate (prompt : List Char)
deriving DecidableEq

/-- External capabilities: similarity search (plain and scored), the
language model, and `json.loads`.  `Except` carries the exception text
(`str(e)`). -/
structure Env where
  search : List Char → Nat → Except (List Char) (List Document)
  searchWithScore : List Char → Nat → Except (List Char) (List (Document × ℚ))
  llm : List Char → Except (List Char) (List Char)
  jsonParse : List Char → Option JsonValue

/-- The `banking_prompt` template with `{context}` and `{question}`
substituted. -/
def banking_template (context question : List Char) : List Char :=
  str "You are a banking assistant that can ONLY provide information from the uploaded banking documents. You MUST NOT use any external knowledge or general banking information.\n\nCRITICAL RULES:\n1. ONLY use information that is explicitly stated in the provided context/documents\n2. If the information is not in the provided documents, say \"I cannot answer this question based on the uploaded documents\"\n3. DO NOT use any general banking knowledge, industry standards, or external information\n4. Quote specific text from the documents when possible\n5. Always cite the source document when providing information\n6. If asked about rates, terms, or conditions not in the documents, clearly state they are not available\n\nContext from uploaded banking documents:\n"
  ++ context
  ++ str "\n\nQuestion: "
  ++ question
  ++ str "\n\nRemember: You can ONLY use information from the above context. If the information is not there, you cannot provide it."

/-- The `table_prompt` template with `{table_data}` and `{question}`
substituted. -/
def table_template (table_data question : List Char) : List Char :=
  str "You are analyzing banking table data from uploaded documents. You can ONLY use information from the provided table.\n\nCRITICAL RULES:\n1. ONLY use data that appears in the table below\n2. If the question cannot be answered from this table, say \"This information is not available in the uploaded table\"\n3. DO NOT use any external banking knowledge or industry standards\n4. Quote exact values from the table when possible\n\nTable Data from uploaded documents:\n"
  ++ table_data
  ++ str "\n\nQuestion: "
  ++ question
  ++ str "\n\nRemember: You can ONLY use information from the above table. If the information is not there, you cannot provide it."

/-- The `compliance_prompt` template with `{context}` and `{question}`
substituted. -/
def compliance_template (context question : List Char) : List Char :=
  str "You are a banking compliance expert analyzing uploaded compliance documents. You can ONLY use information from the provided documents.\n\nCRITICAL RULES:\n1. ONLY use compliance information that is explicitly stated in the provided context\n2. If compliance requirements are not in the documents, say \"This compliance information is not available in the uploaded documents\"\n3. DO NOT use any external compliance knowledge or regulatory standards\n4. Quote specific text from the documents when possible\n5. Always cite the source document\n\nCompliance Context from uploaded documents:\n"
  ++ context
  ++ str "\n\nQuestion: "
  ++ question
  ++ str "\n\nRemember: You can ONLY use information from the above context. If the information is not there, you cannot provide it."

/-- Prompt selection of `BankingLLMManager.generate_response`:
`"table"` and `"compliance"` pick their templates, anything else falls
back to the banking template. -/
def buildPrompt (prompt_type : String) (question context : List Char) :
    List Char :=
  if prompt_type = "table" then table_template context question
  else if prompt_type = "compliance" then compliance_template context question
  else banking_template context question

/-- `BankingLLMManager.generate_response`: format the prompt, invoke the
LLM, and on any exception return the string
`Error generating response: {e}` as the answer (the exception never
escapes this method). -/
def generate_response (env : Env) (question context : List Char)
    (prompt_type : String) : List Char × List CapCall :=
  let prompt := buildPrompt prompt_type question context
  match env.llm prompt with
  | .ok r => (r, [CapCall.generate prompt])
  | .error e => (str "Error generating response: " ++ e, [CapCall.generate prompt])

/-- The validation prompt of
`BankingLLMManager.validate_banking_response` with `{response}` and
`{context}` substituted. -/
def validation_template (response context : List Char) : List Char :=
  str "Please validate the following banking response to ensure it ONLY uses information from the provided context.\n\nResponse to validate: "
  ++ response
  ++ str "\n\nSource context: "
  ++ context
  ++ str "\n\nCRITICAL VALIDATION RULES:\n1. Check if the response ONLY uses information that appears in the source context\n2. Identify any information that seems to come from external knowledge or general banking standards\n3. Verify that all specific numbers, rates, and terms mentioned are in the source context\n4. Check if the response properly cites sources when providing information\n\nPlease provide validation in the following format:\n- Uses Only Provided Context: (yes/no)\n- External Knowledge Detected: (yes/no - list any external information found)\n- Accuracy: (high/medium/low)\n- Source Attribution: (proper/improper/missing)\n- Issues: (list any issues found)\n- Recommendations: (suggestions for improvement)"

/-- Result dict of `validate_banking_response`: either
`{"validation_response": ..., "original_response": ...}` or
`{"error": "Validation failed: ..."}`. -/
inductive ValidationResult where
  | report (validation_response original_response : List Char)
  | failed (msg : List Char)
deriving DecidableEq

/-- `BankingLLMManager.validate_banking_response`: invoke the LLM on the
validation prompt; any exception is caught and wrapped. -/
def validate_banking_response (env : Env) (response context : List Char) :
    ValidationResult × List CapCall :=
  let prompt := validation_template response context
  match env.llm prompt with
  | .ok v => (.report v response, [CapCall.generate prompt])
  | .error e => (.failed (str "Validation failed: " ++ e), [CapCall.generate prompt])

/-- The f-string prompt of
`BankingLLMManager.generate_structured_response`, including its literal
12-space indentation, with `{context}`, `{question}` and
`{response_format}` substituted (`response_format` stands for Python's
rendering of the format dict). -/
def structured_template (context question response_format : List Char) :
    List Char :=
  str "Based on the following banking context, answer the question in the specified format.\n\n            Context: "
  ++ context
  ++ str "\n            \n            Question: "
  ++ question
  ++ str "\n            \n            Required Format: "
  ++ response_format
  ++ str "\n            \n            Please provide your response in the exact format specified above."

/-- Result dict of `generate_structured_response`: the parsed JSON, or
`{"response": raw, "format_error": True}` when `json.loads` fails, or
`{"error": str(e)}` when the LLM call itself raised. -/
inductive StructuredResult where
  | parsed (v : JsonValue)
  | formatErrorResult (response : List Char)
  | errorResult (e : List Char)

/-- `BankingLLMManager.generate_structured_response`: invoke the LLM on
the structured prompt, try `json.loads` on the output, and fall back to
the `format_error` wrapper on parse failure; an LLM exception yields the
`error` dict. -/
def generate_structured_response (env : Env)
    (question context response_format : List Char) :
    StructuredResult × List CapCall :=
  let prompt := structured_template context question response_format
  match env.llm prompt with
  | .error e => (.errorResult e, [CapCall.generate prompt])
  | .ok content =>
    match env.jsonParse content with
    | some v => (.parsed v, [CapCall.generate prompt])
    | none => (.formatErrorResult content, [CapCall.generate prompt])

/-! ## Retrieval chain (`retrieval_chain.py`) -/

/-- The fixed refusal message returned by `BankingRetrievalChain.query`
when retrieval comes back empty. -/
def refusal_message : List Char :=
  str "I cannot answer this question based on the uploaded documents. The information you"
  ++ apos
  ++ str "re asking about is not available in the documents that have been loaded into the system."

/-- The filename computation of `_combine_context`:
`file_path.split('/')[-1] if '/' in file_path else file_path`. -/
def basename (p : String) : String :=
  if p.contains '/' then (p.splitOn "/").getLastD "" else p

/-- The source attribution of `_combine_context` after the DOCUMENT
prefix: basename of `file_path` when the key is present, else the
`source` key, else `Unknown source`. -/
def source_label (m : Metadata) : List Char :=
  match m.file_path with
  | some fp => str (basename fp)
  | none =>
    match m.source with
    | some s => str s
    | none => str "Unknown source"

/-- The page annex of `_combine_context`: ` (Page: {page})` when the
`page` key is present. -/
def page_note (m : Metadata) : List Char :=
  match m.page with
  | some n => str " (Page: " ++ str (toString n) ++ str ")"
  | none => []

/-- One entry of `context_parts` for the chunk at (1-based) position
`i`. -/
def formatDoc (i : Nat) (d : Document) : List Char :=
  str "DOCUMENT " ++ str (toString i) ++ str ": "
  ++ source_label d.metadata ++ page_note d.metadata
  ++ str "\n" ++ pyStrip d.page_content

/-- The `for i, doc in enumerate(documents, 1)` loop of
`_combine_context`, building `context_parts`. -/
def combineLoop : Nat → List Document → List (List Char)
  | _, [] => []
  | i, d :: rest => formatDoc i d :: combineLoop (i + 1) rest

/-- `BankingRetrievalChain._combine_context`: the parts joined by
`\n\n---\n\n`. -/
def combine_context (docs : List Document) : List Char :=
  List.intercalate (str "\n\n---\n\n") (combineLoop 1 docs)

/-- The fixed `compliance_keywords` list of `_determine_prompt_type`. -/
def compliance_keywords : List (List Char) :=
  [str "regulation", str "compliance", str "regulatory", str "requirement",
   str "deadline", str "audit", str "policy", str "procedure"]

/-- Keyword test of `_determine_prompt_type`:
`any(keyword in doc.page_content.lower() for keyword in compliance_keywords)`. -/
def hasComplianceKeyword (d : Document) : Bool :=
  compliance_keywords.any (fun kw => hasSub kw (lowerChars d.page_content))

/-- `BankingRetrievalChain._determine_prompt_type`: scan the documents
in retrieval order; the first one that is a table chunk yields
`"table"`, the first one containing a compliance keyword yields
`"compliance"` (table checked first within each document), else
`"banking"`. -/
def determine_prompt_type : List Document → String
  | [] => "banking"
  | doc :: rest =>
    if doc.metadata.content_type == some "table" then "table"
    else if hasComplianceKeyword doc then "compliance"
    else determine_prompt_type rest

/-- Classifier following the specification's words, for comparison with
`determine_prompt_type`: table if ANY chunk of the set is a table chunk,
else compliance if ANY chunk contains a keyword, else the general
policy. -/
def promptTypeSpec (docs : List Document) : String :=
  if docs.any (fun d => d.metadata.content_type == some "table") then "table"
  else if docs.any hasComplianceKeyword then "compliance"
  else "banking"

/-- The `avg_score` computed by `_calculate_confidence`:
`sum(score for _, score in docs_with_scores) / len(docs_with_scores)`. -/
def avg_score (dws : List (Document × ℚ)) : ℚ :=
  ((dws.map Prod.snd).sum) / (dws.length : ℚ)

/-- `BankingRetrievalChain._calculate_confidence`: scored search with
the produced answer as query and `k = len(documents)`; nonempty results
are averaged and mapped through the `0.8` / `0.6` thresholds; empty
results and any exception both give `"medium"`. -/
def calculate_confidence (env : Env) (documents : List Document)
    (answer : List Char) : String × List CapCall :=
  let call := CapCall.scoredSearch answer documents.length
  match env.searchWithScore answer documents.length with
  | .error _ => ("medium", [call])
  | .ok dws =>
    if dws.isEmpty then ("medium", [call])
    else
      ((if avg_score dws > 0.8 then "high"
        else if avg_score dws > 0.6 then "medium"
        else "low"), [call])

/-- Rank of a confidence label, for the monotonicity claim
(`high ≥ medium ≥ low`). -/
def confRank (s : String) : Nat :=
  if s = "high" then 2 else if s = "medium" then 1 else 0

/-- Result dict of `BankingRetrievalChain.query`.  The two early
returns carry only `answer` / `sources` / `confidence`; the missing
`context` and `validation` keys are `none`. -/
structure QueryResult where
  answer : List Char
  sources : List Metadata
  confidence : String
  context : Option (List Char) := none
  validation : Option ValidationResult := none
deriving DecidableEq

/-- `BankingRetrievalChain.query`: retrieve (`k = 4` at every call
site), refuse on an empty result, otherwise combine context, pick the
prompt type, generate, validate, compute confidence; any exception
inside the `try` (in this embedding only the similarity search can
raise — the three LLM-manager calls and the confidence step catch their
own) is converted into the `Error processing query:` result.  The
second component is the trace of capability calls made. -/
def query (env : Env) (question : List Char) (k : Nat) :
    QueryResult × List CapCall :=
  match env.search question k with
  | .error e =>
    ({ answer := str "Error processing query: " ++ e
       sources := []
       confidence := "error" }, [CapCall.search question k])
  | .ok relevant_docs =>
    if relevant_docs.isEmpty then
      ({ answer := refusal_message
         sources := []
         confidence := "low" }, [CapCall.search question k])
    else
      let context := combine_context relevant_docs
      let prompt_type := determine_prompt_type relevant_docs
      let ans := generate_response env question context prompt_type
      let val := validate_banking_response env ans.1 context
      let conf := calculate_confidence env relevant_docs ans.1
      ({ answer := ans.1
         sources := relevant_docs.map (·.metadata)
         confidence := conf.1
         context := some context
         validation := some val.1 },
       CapCall.search question k :: (ans.2 ++ val.2 ++ conf.2))

/-! ## Assistant facade (`banking_assistant.py`) -/

/-- Result dict of `BankingAssistant.ask_question`. -/
structure AskResult where
  success : Bool
  answer : List Char
  sources : List Metadata
  confidence : String
  validation : Option ValidationResult := none
deriving DecidableEq

/-- `BankingAssistant.ask_question`: reject a blank question before any
other work, otherwise delegate to `query` and wrap the result in the
success envelope (`validation` defaults to the query result's value,
`result.get("validation", {})`). -/
def ask_question (env : Env) (question : List Char) :
    AskResult × List CapCall :=
  if (pyStrip question).isEmpty then
    ({ success := false
       answer := str "Please provide a valid question."
       sources := []
       confidence := "low" }, [])
  else
    let r := query env question 4
    ({ success := true
       answer := r.1.answer
       sources := r.1.sources
       confidence := r.1.confidence
       validation := r.1.validation }, r.2)

/-! ## Concrete instances used by witnesses and counterexamples -/

/-- A processor-produced text chunk. -/
def docA : Document :=
  ⟨str "Savings accounts earn interest.",
   { content_type := some "text", file_path := some "docs/a.txt",
     file_name := some "a.txt" }⟩

/-- A text chunk containing compliance keywords. -/
def docCompliance : Document :=
  ⟨str "All audit procedures must be followed.",
   { content_type := some "text" }⟩

/-- A table chunk. -/
def docTable : Document :=
  ⟨str "Rate | Term", { content_type := some "table" }⟩

/-- Environment whose similarity search finds nothing. -/
def envEmptySearch : Env :=
  { search := fun _ _ => .ok []
    searchWithScore := fun _ _ => .ok []
    llm := fun _ => .ok (str "ok")
    jsonParse := fun _ => none }

/-- Environment whose similarity search raises (embedding capability
down). -/
def envSearchFail : Env :=
  { search := fun _ _ => .error (str "embedding capability down")
    searchWithScore := fun _ _ => .error (str "embedding capability down")
    llm := fun _ => .ok (str "ok")
    jsonParse := fun _ => none }

/-- Environment where retrieval succeeds but every LLM call raises and
the scored search used by the confidence step raises as well. -/
def envGenFail : Env :=
  { search := fun _ _ => .ok [docA]
    searchWithScore := fun _ _ => .error (str "scored search down")
    llm := fun _ => .error (str "LLM down")
    jsonParse := fun _ => none }

/-- Environment delivering a fixed scored-search result. -/
def envScores (dws : List (Document × ℚ)) : Env :=
  { search := fun _ _ => .ok []
    searchWithScore := fun _ _ => .ok dws
    llm := fun _ => .ok (str "ok")
    jsonParse := fun _ => none }

/-- Environment whose LLM answers with text that is not JSON. -/
def envNotJson : Env :=
  { search := fun _ _ => .ok []
    searchWithScore := fun _ _ => .ok []
    llm := fun _ => .ok (str "not json")
    jsonParse := fun _ => none }

/-- Identity-style splitter configuration: the splitter returns the
whole text as one piece (a legitimate `RecursiveCharacterTextSplitter`
behavior for texts below `chunk_size`). -/
def cfgId : SplitCfg :=
  { split := fun s => [s]
    base := {}
    fp := "docs/f.txt"
    fn := "f.txt"
    ts := "2024-01-01T00:00:00" }

/-- Document text on which `_extract_tables` produces two overlapping
regions: the `Table N` pattern matches the whole text `(0, 21)` and the
whitespace-aligned-columns pattern matches `(13, 21)`. -/
def contentOverlap : List Char := str "Table 1 Rates\n x y z\n"

/-- The whitespace-aligned-columns match on `contentOverlap`. -/
def regionCols : TableRegion := ⟨str "\n x y z\n", 13, 21⟩

/-- The `Table N` labeled-block match on `contentOverlap`. -/
def regionLabeled : TableRegion := ⟨contentOverlap, 0, 21⟩

/-- Document text with a single, disjoint table region. -/
def contentDisjoint : List Char := str "AB\nT T\nCD"

/-- The single region of `contentDisjoint`. -/
def regionDisjoint : TableRegion := ⟨str "T T\n", 3, 7⟩

/-- Chunk used to populate the over-1000-entries store. -/
def mkDoc (i : Nat) : Document :=
  ⟨str "chunk", { file_path := some "docs/big.pdf", chunk_id := some i }⟩

/-- A store holding 1001 chunks of the same source document. -/
def bigStore : List Document := (List.range 1001).map mkDoc

/-- Metadata carrying `file_name` and `source` but no `file_path`. -/
def mOrphan : Metadata :=
  { file_name := some "a.txt", source := some "s3-bucket-17" }

/-- Source label following the claim's words (`file_name` if present,
else `source_path`, else unknown), for comparison with
`source_label`. -/
def sourceLabelClaim (m : Metadata) : List Char :=
  match m.file_name with
  | some fn => str fn
  | none =>
    match m.file_path with
    | some fp => str fp
    | none => str "Unknown source"

/-- Spec-shaped form of `_combine_context`: the chunks enumerated from
1 in retrieval order, each formatted with its source label and page
note, joined by the fixed delimiter. -/
def combineContextSpec (docs : List Document) : List Char :=
  List.intercalate (str "\n\n---\n\n")
    ((List.enumFrom 1 docs).map (fun p => formatDoc p.1 p.2))

/-- Combined per-chunk test of the classifier scan: table chunk, or
text containing a compliance keyword. -/
def tableOrKeyword (d : Document) : Bool :=
  (d.metadata.content_type == some "table") || hasComplianceKeyword d

/-! ## Helper lemmas -/

/-- Dropping whitespace from the front does not change the
non-whitespace content. -/
theorem filterNW_dropWhile (s : List Char) :
    filterNW (s.dropWhile Char.isWhitespace) = filterNW s := by
  induction s with
  | nil => rfl
  | cons c rest ih =>
    by_cases h : Char.isWhitespace c
    · simp [List.dropWhile, h, filterNW, List.filter] at ih ⊢
      simpa [h] using ih
    · simp [List.dropWhile, h]

/-- `filterNW` commutes with `reverse`. -/
theorem filterNW_reverse (s : List Char) :
    filterNW s.reverse = (filterNW s).reverse := by
  simp [filterNW, List.filter_reverse]

/-- `filterNW` distributes over append. -/
theorem filterNW_append (u v : List Char) :
    filterNW (u ++ v) = filterNW u ++ filterNW v := by
  simp [filterNW, List.filter_append]

/-- Python `strip` does not change the non-whitespace content. -/
theorem filterNW_pyStrip (s : List Char) :
    filterNW (pyStrip s) = filterNW s := by
  unfold pyStrip
  rw [filterNW_reverse, filterNW_dropWhile, filterNW_reverse,
    filterNW_dropWhile, List.reverse_reverse]

/-- `contentOf` distributes over append. -/
theorem contentOf_append (l₁ l₂ : List Document) :
    contentOf (l₁ ++ l₂) = contentOf l₁ ++ contentOf l₂ := by
  simp [contentOf]

/-- Content of the chunk-append fold used by `addTextChunks`: the
pieces are appended, in order, after the accumulator's content. -/
theorem contentOf_foldl (cfg : SplitCfg) (pieces : List (List Char)) :
    ∀ acc : List Document,
      contentOf (pieces.foldl (fun a c => a ++ [textDoc cfg a.length c]) acc)
        = contentOf acc ++ pieces.flatten := by
  induction pieces with
  | nil => intro acc; simp
  | cons p rest ih =>
    intro acc
    rw [List.foldl_cons, ih, contentOf_append]
    simp [contentOf, textDoc]

/-- `addTextChunks` adds exactly the span's non-whitespace content,
provided the splitter preserves non-whitespace content. -/
theorem filterNW_addTextChunks (cfg : SplitCfg)
    (hsplit : ∀ s, filterNW (cfg.split s).flatten = filterNW s)
    (acc : List Document) (span : List Char) :
    filterNW (contentOf (addTextChunks cfg acc span))
      = filterNW (contentOf acc) ++ filterNW span := by
  unfold addTextChunks
  by_cases h : (pyStrip span).isEmpty
  · have h0 : pyStrip span = [] := by simpa [List.isEmpty_iff] using h
    have : filterNW span = [] := by
      rw [← filterNW_pyStrip, h0]; rfl
    simp [h, this]
  · rw [if_neg h, contentOf_foldl, filterNW_append, hsplit, filterNW_pyStrip]

/-- Concatenating adjacent slices. -/
theorem slice_append_slice (content : List Char) {a b c : Nat}
    (hab : a ≤ b) (hbc : b ≤ c) (ha : a ≤ content.length) :
    slice content a b ++ slice content b c = slice content a c := by
  unfold slice
  have htake : content.take b ++ (content.take c).drop b = content.take c := by
    have h1 : (content.take c).take b = content.take b := by
      rw [List.take_take, Nat.min_eq_left hbc]
    calc content.take b ++ (content.take c).drop b
        = (content.take c).take b ++ (content.take c).drop b := by rw [h1]
      _ = content.take c := List.take_append_drop _ _
  calc (content.take b).drop a ++ (content.take c).drop b
      = (content.take b ++ (content.take c).drop b).drop a := by
        rw [List.drop_append_of_le_length]
        rw [List.length_take]
        exact le_min hab ha
    _ = (content.take c).drop a := by rw [htake]

/-- An empty slice. -/
theorem slice_self (content : List Char) (a : Nat) :
    slice content a a = [] := by
  apply List.drop_eq_nil_of_le
  rw [List.length_take]
  exact min_le_left _ _

/-- The invariant of the `_chunk_with_tables` main loop: on a chained
(sorted, pairwise disjoint) region list whose texts match their slices,
the loop extends the accumulated content by exactly the text between
`current_pos` and the final position, up to whitespace. -/
theorem chunkLoop_filterNW (cfg : SplitCfg) (content : List Char)
    (hsplit : ∀ s, filterNW (cfg.split s).flatten = filterNW s) :
    ∀ (ts : List TableRegion) (current : Nat) (acc : List Document),
      chainedFrom current ts = true →
      (∀ t ∈ ts, t.text = slice content t.start_pos t.end_pos ∧
        t.end_pos ≤ content.length) →
      current ≤ content.length →
      filterNW (contentOf (chunkLoop cfg content ts current acc).1)
          = filterNW (contentOf acc)
            ++ filterNW (slice content current (chunkLoop cfg content ts current acc).2)
        ∧ current ≤ (chunkLoop cfg content ts current acc).2
        ∧ (chunkLoop cfg content ts current acc).2 ≤ content.length := by
  intro ts
  induction ts with
  | nil =>
    intro current acc _ _ hcur
    simp only [chunkLoop]
    exact ⟨by rw [slice_self]; simp [filterNW], le_refl _, hcur⟩
  | cons t rest ih =>
    intro current acc hchain hwf hcur
    simp only [chainedFrom, Bool.and_eq_true, decide_eq_true_eq] at hchain
    have hc1 : current ≤ t.start_pos := hchain.1.1
    have hc2 : t.start_pos ≤ t.end_pos := hchain.1.2
    have hc3 : chainedFrom t.end_pos rest = true := hchain.2
    have htext : t.text = slice content t.start_pos t.end_pos :=
      (hwf t (List.mem_cons_self t rest)).1
    have hend : t.end_pos ≤ content.length :=
      (hwf t (List.mem_cons_self t rest)).2
    have hstep : ∀ acc1 : List Document,
        filterNW (contentOf acc1)
          = filterNW (contentOf acc)
            ++ filterNW (slice content current t.start_pos) →
        filterNW (contentOf (acc1 ++ [tableDoc cfg acc1.length t.text]))
          = filterNW (contentOf acc)
            ++ filterNW (slice content current t.end_pos) := by
      intro acc1 h1
      rw [contentOf_append, filterNW_append, h1]
      have h2 : contentOf [tableDoc cfg acc1.length t.text] = t.text := by
        simp [contentOf, tableDoc]
      rw [h2, htext, List.append_assoc, ← filterNW_append,
        slice_append_slice content hc1 hc2
          (le_trans hc1 (le_trans hc2 hend))]
    have hmain : ∀ acc1 : List Document,
        filterNW (contentOf acc1)
          = filterNW (contentOf acc)
            ++ filterNW (slice content current t.start_pos) →
        filterNW (contentOf (chunkLoop cfg content rest t.end_pos
            (acc1 ++ [tableDoc cfg acc1.length t.text])).1)
            = filterNW (contentOf acc)
              ++ filterNW (slice content current
                  (chunkLoop cfg content rest t.end_pos
                    (acc1 ++ [tableDoc cfg acc1.length t.text])).2)
          ∧ current ≤ (chunkLoop cfg content rest t.end_pos
              (acc1 ++ [tableDoc cfg acc1.length t.text])).2
          ∧ (chunkLoop cfg content rest t.end_pos
              (acc1 ++ [tableDoc cfg acc1.length t.text])).2 ≤ content.length := by
      intro acc1 h1
      obtain ⟨hrec, hle, hlen⟩ :=
        ih t.end_pos (acc1 ++ [tableDoc cfg acc1.length t.text])
          hc3 (fun u hu => hwf u (List.mem_cons_of_mem t hu)) hend
      refine ⟨?_, le_trans (le_trans hc1 hc2) hle, hlen⟩
      rw [hrec, hstep acc1 h1, List.append_assoc, ← filterNW_append,
        slice_append_slice content (le_trans hc1 hc2) hle
          (le_trans hc1 (le_trans hc2 hend))]
    by_cases hlt : current < t.start_pos
    · have := hmain (addTextChunks cfg acc (slice content current t.start_pos))
        (filterNW_addTextChunks cfg hsplit acc _)
      simpa [chunkLoop, hlt] using this
    · have heq : current = t.start_pos := le_antisymm hc1 (not_lt.mp hlt)
      have := hmain acc (by rw [← heq, slice_self]; simp [filterNW])
      simpa [chunkLoop, hlt] using this

/-- Text chunks are not table chunks. -/
theorem isTableChunk_textDoc (cfg : SplitCfg) (n : Nat) (c : List Char) :
    isTableChunk (textDoc cfg n c) = false := by
  simp [isTableChunk, textDoc, textChunkMeta]

/-- Table chunks are table chunks. -/
theorem isTableChunk_tableDoc (cfg : SplitCfg) (n : Nat) (c : List Char) :
    isTableChunk (tableDoc cfg n c) = true := by
  simp [isTableChunk, tableDoc, tableChunkMeta]

/-- The split-chunk fold adds no table chunks. -/
theorem filter_isTable_foldl (cfg : SplitCfg) (pieces : List (List Char)) :
    ∀ acc : List Document,
      (pieces.foldl (fun a c => a ++ [textDoc cfg a.length c]) acc).filter
          isTableChunk
        = acc.filter isTableChunk := by
  induction pieces with
  | nil => intro acc; rfl
  | cons p rest ih =>
    intro acc
    rw [List.foldl_cons, ih, List.filter_append]
    simp [isTableChunk_textDoc]

/-- `addTextChunks` adds no table chunks. -/
theorem filter_isTable_addTextChunks (cfg : SplitCfg) (acc : List Document)
    (span : List Char) :
    (addTextChunks cfg acc span).filter isTableChunk
      = acc.filter isTableChunk := by
  unfold addTextChunks
  by_cases h : (pyStrip span).isEmpty
  · simp [h]
  · rw [if_neg h, filter_isTable_foldl]

/-- The table chunks produced by the `_chunk_with_tables` loop are
exactly the regions of its argument list, in order, each verbatim as one
chunk. -/
theorem chunkLoop_tables (cfg : SplitCfg) (content : List Char) :
    ∀ (ts : List TableRegion) (current : Nat) (acc : List Document),
      (((chunkLoop cfg content ts current acc).1.filter isTableChunk).map
          (·.page_content))
        = ((acc.filter isTableChunk).map (·.page_content))
          ++ ts.map (·.text) := by
  intro ts
  induction ts with
  | nil => intro current acc; simp [chunkLoop]
  | cons t rest ih =>
    intro current acc
    simp only [chunkLoop]
    rw [ih]
    by_cases hlt : current < t.start_pos
    · rw [if_pos hlt, List.filter_append, filter_isTable_addTextChunks]
      simp [List.filter, isTableChunk, tableDoc, tableChunkMeta]
    · rw [if_neg hlt, List.filter_append]
      simp [List.filter, isTableChunk, tableDoc, tableChunkMeta]

/-- C2: every detected table region is emitted verbatim as exactly one
chunk with `content_type = "table"`; table chunks never pass through the
text splitter, whatever the splitter and the region sizes are, so no
table chunk is ever split. -/
theorem C2_table_atomicity (cfg : SplitCfg) (content : List Char)
    (tables : List TableRegion) :
    ((chunk_with_tables cfg content tables).filter isTableChunk).map
        (·.page_content)
      = (sortTables tables).map (·.text) := by
  unfold chunk_with_tables
  by_cases h :
      (chunkLoop cfg content (sortTables tables) 0 []).2 < content.length
  · simp only [h, if_true]
    rw [filter_isTable_addTextChunks]
    simpa using chunkLoop_tables cfg content (sortTables tables) 0 []
  · simp only [h, if_false]
    simpa using chunkLoop_tables cfg content (sortTables tables) 0 []

/-- C3 (amended): when the detected regions, sorted, are pairwise
disjoint and carry their slice of the document, and the splitter
preserves non-whitespace content (its configured overlap trimmed), the
chunks re-concatenated in `chunk_id` order reproduce the document's
non-whitespace content exactly. -/
theorem C3_reconcat (cfg : SplitCfg) (content : List Char)
    (tables : List TableRegion)
    (hsplit : ∀ s, filterNW (cfg.split s).flatten = filterNW s)
    (hchain : chainedFrom 0 (sortTables tables) = true)
    (hwf : ∀ t ∈ sortTables tables,
      t.text = slice content t.start_pos t.end_pos ∧
        t.end_pos ≤ content.length) :
    filterNW (contentOf (chunk_with_tables cfg content tables))
      = filterNW content := by
  obtain ⟨h1, _, h3⟩ := chunkLoop_filterNW cfg content hsplit
    (sortTables tables) 0 [] hchain hwf (Nat.zero_le _)
  have hsl : slice content 0 (chunkLoop cfg content (sortTables tables) 0 []).2
      = content.take (chunkLoop cfg content (sortTables tables) 0 []).2 := by
    unfold slice; rw [List.drop_zero]
  unfold chunk_with_tables
  by_cases h :
      (chunkLoop cfg content (sortTables tables) 0 []).2 < content.length
  · simp only [h, if_true]
    rw [filterNW_addTextChunks cfg hsplit, h1, hsl]
    show ([] : List Char) ++ _ ++ _ = _
    rw [List.nil_append, ← filterNW_append, List.take_append_drop]
  · simp only [h, if_false]
    have hlen : (chunkLoop cfg content (sortTables tables) 0 []).2
        = content.length := le_antisymm h3 (not_lt.mp h)
    rw [h1, hsl, hlen, List.take_length]
    rfl

/-- C3 counterexample: on the document text
`"Table 1 Rates\n x y z\n"` the pattern scan of `_extract_tables`
returns two overlapping regions (the labeled-table pattern matches
offsets 0 to 21, the aligned-columns pattern offsets 13 to 21), and
`_chunk_with_tables` then emits the overlapped span twice, so the
re-concatenated non-whitespace content differs from the original. -/
theorem C3_counterexample :
    filterNW (contentOf
        (chunk_with_tables cfgId contentOverlap [regionCols, regionLabeled]))
      ≠ filterNW contentOverlap := by decide

/-- C3 witness: a disjoint region list where the amended statement
applies and its hypotheses hold. -/
theorem C3_witness :
    chainedFrom 0 (sortTables [regionDisjoint]) = true
    ∧ (∀ t ∈ sortTables [regionDisjoint],
        t.text = slice contentDisjoint t.start_pos t.end_pos ∧
          t.end_pos ≤ contentDisjoint.length)
    ∧ filterNW (contentOf
        (chunk_with_tables cfgId contentDisjoint [regionDisjoint]))
      = filterNW contentDisjoint :=
  ⟨by decide, by decide,
    C3_reconcat cfgId contentDisjoint [regionDisjoint]
      (fun s => by simp [cfgId]) (by decide) (by decide)⟩

/-- C1: a query whose similarity retrieval returns an empty chunk list
ends in the fixed refusal answer with empty sources and confidence
`low`, and the language-generation capability is never invoked (the call
trace holds no `generate` entry). -/
theorem C1_no_evidence_refusal (env : Env) (question : List Char)
    (h : env.search question 4 = .ok []) :
    (query env question 4).1
      = { answer := refusal_message, sources := [], confidence := "low" }
    ∧ ∀ p, CapCall.generate p ∉ (query env question 4).2 := by
  constructor
  · simp [query, h]
  · intro p
    simp [query, h]

/-- C1 witness: a concrete environment whose retrieval finds nothing. -/
theorem C1_witness :
    envEmptySearch.search (str "What is the capital of France?") 4 = .ok []
    ∧ ((query envEmptySearch (str "What is the capital of France?") 4).1
        = { answer := refusal_message, sources := [], confidence := "low" }
      ∧ ∀ p, CapCall.generate p
          ∉ (query envEmptySearch (str "What is the capital of France?") 4).2) :=
  ⟨rfl, C1_no_evidence_refusal envEmptySearch _ rfl⟩

/-- C4: the confidence step maps the average retrieval score through
the fixed `0.8` / `0.6` thresholds (`high` / `medium` / `low`), a higher
average never yields a lower label, and any failure of the scored search
defaults to `medium`. -/
theorem C4_confidence_thresholds :
    (∀ (env : Env) (docs : List Document) (ans e : List Char),
      env.searchWithScore ans docs.length = .error e →
      (calculate_confidence env docs ans).1 = "medium")
    ∧ (∀ (env : Env) (docs : List Document) (ans : List Char)
        (dws : List (Document × ℚ)),
        env.searchWithScore ans docs.length = .ok dws → dws ≠ [] →
        ((0.8 < avg_score dws →
            (calculate_confidence env docs ans).1 = "high")
        ∧ (0.6 < avg_score dws → avg_score dws ≤ 0.8 →
            (calculate_confidence env docs ans).1 = "medium")
        ∧ (avg_score dws ≤ 0.6 →
            (calculate_confidence env docs ans).1 = "low")))
    ∧ (∀ (env₁ env₂ : Env) (docs : List Document) (ans₁ ans₂ : List Char)
        (dws₁ dws₂ : List (Document × ℚ)),
        env₁.searchWithScore ans₁ docs.length = .ok dws₁ →
        env₂.searchWithScore ans₂ docs.length = .ok dws₂ →
        dws₁ ≠ [] → dws₂ ≠ [] →
        avg_score dws₁ ≤ avg_score dws₂ →
        confRank (calculate_confidence env₁ docs ans₁).1
          ≤ confRank (calculate_confidence env₂ docs ans₂).1) := by
  have hcc : ∀ (env : Env) (docs : List Document) (ans : List Char)
      (dws : List (Document × ℚ)),
      env.searchWithScore ans docs.length = .ok dws → dws ≠ [] →
      (calculate_confidence env docs ans).1
        = (if 0.8 < avg_score dws then "high"
          else if 0.6 < avg_score dws then "medium" else "low") := by
    intro env docs ans dws hok hne
    have hie : dws.isEmpty = false := by
      cases dws with
      | nil => exact absurd rfl hne
      | cons a l => rfl
    simp [calculate_confidence, hok, hie]
  refine ⟨?_, ?_, ?_⟩
  · intro env docs ans e h
    simp [calculate_confidence, h]
  · intro env docs ans dws hok hne
    refine ⟨?_, ?_, ?_⟩
    · intro h8
      rw [hcc env docs ans dws hok hne, if_pos h8]
    · intro h6 h8
      rw [hcc env docs ans dws hok hne, if_neg (not_lt.mpr h8), if_pos h6]
    · intro h6
      rw [hcc env docs ans dws hok hne, if_neg (not_lt.mpr (le_trans h6 (by norm_num))),
        if_neg (not_lt.mpr h6)]
  · intro env₁ env₂ docs ans₁ ans₂ dws₁ dws₂ hok₁ hok₂ hne₁ hne₂ hle
    rw [hcc env₁ docs ans₁ dws₁ hok₁ hne₁, hcc env₂ docs ans₂ dws₂ hok₂ hne₂]
    by_cases hb8 : (0.8 : ℚ) < avg_score dws₂
    · rw [if_pos hb8]
      by_cases ha8 : (0.8 : ℚ) < avg_score dws₁
      · rw [if_pos ha8]
      · rw [if_neg ha8]
        by_cases ha6 : (0.6 : ℚ) < avg_score dws₁
        · rw [if_pos ha6]; decide
        · rw [if_neg ha6]; decide
    · rw [if_neg hb8]
      have ha8 : ¬ (0.8 : ℚ) < avg_score dws₁ :=
        fun h => hb8 (lt_of_lt_of_le h hle)
      rw [if_neg ha8]
      by_cases hb6 : (0.6 : ℚ) < avg_score dws₂
      · rw [if_pos hb6]
        by_cases ha6 : (0.6 : ℚ) < avg_score dws₁
        · rw [if_pos ha6]
        · rw [if_neg ha6]; decide
      · rw [if_neg hb6]
        have ha6 : ¬ (0.6 : ℚ) < avg_score dws₁ :=
          fun h => hb6 (lt_of_lt_of_le h hle)
        rw [if_neg ha6]

/-- C4 witness: concrete scored-search results on either side of the
thresholds, with the labels ordered accordingly. -/
theorem C4_witness :
    (calculate_confidence (envScores [(docA, 0.9)]) [docA] (str "answer")).1
        = "high"
    ∧ confRank (calculate_confidence (envScores [(docA, 0.5)]) [docA]
          (str "answer")).1
        ≤ confRank (calculate_confidence (envScores [(docA, 0.9)]) [docA]
          (str "answer")).1 :=
  ⟨(C4_confidence_thresholds.2.1 (envScores [(docA, 0.9)]) [docA]
      (str "answer") [(docA, 0.9)] rfl (by simp)).1 (by norm_num [avg_score]),
   C4_confidence_thresholds.2.2 (envScores [(docA, 0.5)])
     (envScores [(docA, 0.9)]) [docA] (str "answer") (str "answer")
     [(docA, 0.5)] [(docA, 0.9)] rfl rfl (by simp) (by simp)
     (by norm_num [avg_score])⟩

/-- C5 (amended): the classifier scans the retrieved chunks in order
and answers according to the FIRST chunk that is a table chunk or
contains a compliance keyword (table checked before keywords within that
one chunk), defaulting to the general `banking` policy; in particular,
when no chunk of the set is a table chunk, the scan agrees with the
any-chunk reading of the specification. -/
theorem C5_policy_scan (docs : List Document) :
    determine_prompt_type docs
      = (match docs.find? tableOrKeyword with
        | some d =>
          if d.metadata.content_type == some "table" then "table"
          else "compliance"
        | none => "banking")
    ∧ ((docs.all fun d => !(d.metadata.content_type == some "table")) = true →
        determine_prompt_type docs = promptTypeSpec docs) := by
  constructor
  · induction docs with
    | nil => rfl
    | cons d rest ih =>
      by_cases h1 : d.metadata.content_type == some "table"
      · simp [determine_prompt_type, h1, List.find?, tableOrKeyword]
      · by_cases h2 : hasComplianceKeyword d
        · simp [determine_prompt_type, h1, h2, List.find?, tableOrKeyword]
        · simp only [determine_prompt_type, List.find?, tableOrKeyword,
            h1, h2, Bool.or_self, if_neg]
          simpa [h1, h2, tableOrKeyword] using ih
  · induction docs with
    | nil => intro _; rfl
    | cons d rest ih =>
      intro hall
      rw [List.all_cons, Bool.and_eq_true] at hall
      have h1 : (d.metadata.content_type == some "table") = false := by
        simpa using hall.1
      have hanyt : rest.any (fun d => d.metadata.content_type == some "table")
          = false := by
        rw [List.any_eq_false]
        intro x hx
        have := List.all_eq_true.mp hall.2 x hx
        simpa using this
      by_cases h2 : hasComplianceKeyword d
      · simp [determine_prompt_type, h1, h2, promptTypeSpec, hanyt]
      · have := ih hall.2
        simp only [determine_prompt_type, h1, Bool.false_eq_true, if_false,
          h2, this]
        simp [promptTypeSpec, hanyt, h1, h2]

/-- C5 counterexample: a compliance-keyword chunk retrieved before a
table chunk makes the code answer `compliance`, while the claim's
any-chunk reading demands `table`. -/
theorem C5_counterexample :
    promptTypeSpec [docCompliance, docTable] = "table"
    ∧ determine_prompt_type [docCompliance, docTable] = "compliance" := by
  constructor
  · decide
  · decide

/-- C5 witness: on a table-free chunk set the scan and the
specification reading agree. -/
theorem C5_witness :
    (([docCompliance]).all fun d =>
        !(d.metadata.content_type == some "table")) = true
    ∧ determine_prompt_type [docCompliance] = promptTypeSpec [docCompliance] :=
  ⟨by decide, (C5_policy_scan [docCompliance]).2 (by decide)⟩

/-- C6 (amended): a similarity-search (embedding) failure yields the
`Error processing query:` answer with confidence `error` and empty
sources; a language-generation failure is caught inside the LLM manager
instead — its description comes back as the answer text while the
sources remain the retrieved metadata and the confidence is computed by
the ordinary confidence step.  In both cases `query` returns a
structured result rather than letting the failure escape. -/
theorem C6_capability_failures :
    (∀ (env : Env) (q e : List Char),
      env.search q 4 = .error e →
      (query env q 4).1
        = { answer := str "Error processing query: " ++ e
            sources := []
            confidence := "error" })
    ∧ (∀ (env : Env) (q e : List Char) (docs : List Document),
        env.search q 4 = .ok docs → docs ≠ [] →
        env.llm (buildPrompt (determine_prompt_type docs) q
            (combine_context docs)) = .error e →
        (query env q 4).1.answer = str "Error generating response: " ++ e
        ∧ (query env q 4).1.sources = docs.map (·.metadata)) := by
  constructor
  · intro env q e h
    simp [query, h]
  · intro env q e docs hs hne hllm
    have hie : docs.isEmpty = false := by
      cases docs with
      | nil => exact absurd rfl hne
      | cons a l => rfl
    constructor
    · simp [query, hs, hie, generate_response, hllm]
    · simp [query, hs, hie]

/-- C6 counterexample: with retrieval succeeding and the LLM down, the
result's confidence is `medium` (not `error`) and its sources are
non-empty, against the claim's terms; only the answer text carries the
error description. -/
theorem C6_counterexample :
    (query envGenFail (str "What are the fees?") 4).1.answer
        = str "Error generating response: LLM down"
    ∧ (query envGenFail (str "What are the fees?") 4).1.confidence = "medium"
    ∧ (query envGenFail (str "What are the fees?") 4).1.sources ≠ [] := by
  refine ⟨by decide, by decide, by decide⟩

/-- C6 witness: both amended branches at concrete environments. -/
theorem C6_witness :
    (query envSearchFail (str "q") 4).1
      = { answer := str "Error processing query: "
            ++ str "embedding capability down"
          sources := []
          confidence := "error" }
    ∧ ((query envGenFail (str "q") 4).1.answer
        = str "Error generating response: " ++ str "LLM down"
      ∧ (query envGenFail (str "q") 4).1.sources = [docA].map (·.metadata)) :=
  ⟨C6_capability_failures.1 envSearchFail (str "q")
      (str "embedding capability down") rfl,
   C6_capability_failures.2 envGenFail (str "q") (str "LLM down") [docA]
     rfl (by simp) rfl⟩

/-- `List.diff` skips a head element that occurs nowhere in the removal
list. -/
theorem diff_cons_of_ne {α : Type} [DecidableEq α] :
    ∀ (l₂ l : List α) (a : α), (∀ b ∈ l₂, b ≠ a) →
      (a :: l).diff l₂ = a :: l.diff l₂ := by
  intro l₂
  induction l₂ with
  | nil => intro l a _; simp [List.diff_nil]
  | cons b bs ih =>
    intro l a h
    rw [List.diff_cons, List.diff_cons]
    have hba : ¬((a == b) = true) := by
      simp only [beq_iff_eq]
      exact fun hab => h b (List.mem_cons_self b bs) (hab ▸ rfl)
    rw [List.erase_cons_tail hba]
    exact ih (l.erase b) a (fun c hc => h c (List.mem_cons_of_mem b hc))

/-- Removing from a list exactly its elements satisfying `p` leaves its
elements not satisfying `p`, in order. -/
theorem diff_filter_self {α : Type} [DecidableEq α] (l : List α)
    (p : α → Bool) :
    l.diff (l.filter p) = l.filter (fun a => !p a) := by
  induction l with
  | nil => rfl
  | cons a l ih =>
    by_cases h : p a
    · rw [List.filter_cons, if_pos h, List.diff_cons, List.erase_cons_head,
        ih, List.filter_cons]
      simp [h]
    · rw [List.filter_cons, if_neg h]
      have hne : ∀ b ∈ l.filter p, b ≠ a := by
        intro b hb hba
        exact h (hba ▸ List.of_mem_filter hb)
      rw [diff_cons_of_ne (l.filter p) l a hne, ih, List.filter_cons]
      simp [h]

/-- Removing an initial segment with `List.diff`. -/
theorem append_diff_left {α : Type} [DecidableEq α] :
    ∀ l₁ l₂ : List α, (l₁ ++ l₂).diff l₁ = l₂ := by
  intro l₁
  induction l₁ with
  | nil => intro l₂; simp [List.diff_nil]
  | cons a l ih =>
    intro l₂
    rw [List.cons_append, List.diff_cons, List.erase_cons_head]
    exact ih l₂

/-- The lengths of the two complementary filters add up. -/
theorem filter_length_split {α : Type} (l : List α) (p : α → Bool) :
    (l.filter p).length + (l.filter (fun a => !p a)).length = l.length := by
  induction l with
  | nil => rfl
  | cons a l ih =>
    by_cases h : p a <;> simp [List.filter_cons, h, ← ih] <;> omega

/-- C7 (amended): on a store of at most 1000 entries,
`delete_documents_by_source p` removes exactly the chunks whose
`file_path` metadata equals `p` (so afterwards no stored chunk — hence
no search result, search results being stored chunks — carries that
source), and the entry count drops by exactly the prior chunk count for
`p`.  The method itself returns `None`; the deleted count is only
printed. -/
theorem C7_delete_by_source (store : List Document) (p : String)
    (h : store.length ≤ 1000) :
    delete_documents_by_source store p
        = store.filter (fun d => !(d.metadata.file_path == some p))
    ∧ (∀ d ∈ delete_documents_by_source store p,
        d.metadata.file_path ≠ some p)
    ∧ (delete_documents_by_source store p).length
        = store.length
          - (store.filter
              (fun d => d.metadata.file_path == some p)).length := by
  have h1 : delete_documents_by_source store p
      = store.filter (fun d => !(d.metadata.file_path == some p)) := by
    unfold delete_documents_by_source get_all_documents
    rw [List.take_of_length_le h]
    exact diff_filter_self store _
  refine ⟨h1, ?_, ?_⟩
  · intro d hd
    rw [h1] at hd
    have := List.of_mem_filter hd
    simpa using this
  · rw [h1]
    have := filter_length_split store
      (fun d => d.metadata.file_path == some p)
    omega

/-- C7 witness: the amended statement at a one-chunk store. -/
theorem C7_witness :
    [docA].length ≤ 1000
    ∧ delete_documents_by_source [docA] "docs/a.txt"
        = ([docA]).filter
            (fun d => !(d.metadata.file_path == some "docs/a.txt"))
    ∧ (∀ d ∈ delete_documents_by_source [docA] "docs/a.txt",
        d.metadata.file_path ≠ some "docs/a.txt")
    ∧ (delete_documents_by_source [docA] "docs/a.txt").length
        = [docA].length
          - (([docA]).filter
              (fun d => d.metadata.file_path == some "docs/a.txt")).length :=
  ⟨by simp,
   (C7_delete_by_source [docA] "docs/a.txt" (by simp)).1,
   (C7_delete_by_source [docA] "docs/a.txt" (by simp)).2.1,
   (C7_delete_by_source [docA] "docs/a.txt" (by simp)).2.2⟩

/-- C7 counterexample: a store of 1001 chunks of source
`docs/big.pdf`: only the first 1000 fetched entries are deleted, so one
chunk with that source survives the call. -/
theorem C7_counterexample :
    delete_documents_by_source bigStore "docs/big.pdf" = [mkDoc 1000]
    ∧ (mkDoc 1000).metadata.file_path = some "docs/big.pdf"
    ∧ bigStore.length = 1001 := by
  have htake : bigStore.take 1000 = (List.range 1000).map mkDoc := by
    unfold bigStore
    rw [← List.map_take, List.take_range]
    norm_num
  have hfilter : ((List.range 1000).map mkDoc).filter
      (fun d => d.metadata.file_path == some "docs/big.pdf")
      = (List.range 1000).map mkDoc := by
    rw [List.filter_eq_self]
    intro d hd
    obtain ⟨i, _, rfl⟩ := List.mem_map.mp hd
    simp [mkDoc]
  have hsplit : bigStore = (List.range 1000).map mkDoc ++ [mkDoc 1000] := by
    unfold bigStore
    rw [show (1001 : ℕ) = 1000 + 1 from rfl, List.range_succ, List.map_append]
    rfl
  refine ⟨?_, rfl, by unfold bigStore; simp⟩
  unfold delete_documents_by_source get_all_documents
  rw [htake]
  show bigStore.diff (((List.range 1000).map mkDoc).filter
      (fun d => d.metadata.file_path == some "docs/big.pdf")) = [mkDoc 1000]
  rw [hfilter, hsplit, append_diff_left]

/-- `combineLoop` is the enumerate-from-1 map. -/
theorem combineLoop_enumFrom :
    ∀ (i : Nat) (docs : List Document),
      combineLoop i docs
        = (List.enumFrom i docs).map (fun p => formatDoc p.1 p.2) := by
  intro i docs
  induction docs generalizing i with
  | nil => rfl
  | cons d rest ih => simp [combineLoop, List.enumFrom, ih]

/-- C8 (amended): the composed context enumerates the chunks from 1 in
retrieval order, prefixes each with `DOCUMENT i: ` plus a source label —
the final path segment of its `file_path` metadata when that key is
present, else its `source` metadata, else `Unknown source` — appends the
page number when present, and joins the parts with the distinct
delimiter; whenever `file_path` is present the label is its basename
(which equals the `file_name` metadata for chunks the Chunker
produced). -/
theorem C8_context_assembly (docs : List Document) :
    combine_context docs = combineContextSpec docs
    ∧ (∀ (m : Metadata) (fp : String), m.file_path = some fp →
        source_label m = str (basename fp)) := by
  constructor
  · unfold combine_context combineContextSpec
    rw [combineLoop_enumFrom]
  · intro m fp h
    unfold source_label
    rw [h]

/-- C8 witness: the assembled context and the `file_path` label rule at
a concrete chunk. -/
theorem C8_witness :
    combine_context [docA] = combineContextSpec [docA]
    ∧ docA.metadata.file_path = some "docs/a.txt"
    ∧ source_label docA.metadata = str (basename "docs/a.txt") :=
  ⟨(C8_context_assembly [docA]).1, rfl,
   (C8_context_assembly [docA]).2 docA.metadata "docs/a.txt" rfl⟩

/-- C8 counterexample: a chunk carrying `file_name` but no `file_path`
is labeled with its `source` metadata, not its `file_name`, against the
claim's precedence. -/
theorem C8_counterexample :
    source_label mOrphan = str "s3-bucket-17"
    ∧ sourceLabelClaim mOrphan = str "a.txt"
    ∧ source_label mOrphan ≠ sourceLabelClaim mOrphan
    ∧ combine_context [⟨str "x", mOrphan⟩]
        = str "DOCUMENT 1: s3-bucket-17\nx" := by
  refine ⟨rfl, rfl, by decide, by decide⟩

/-- C9: when the LLM call succeeds but its output fails to parse as the
expected structured form, `generate_structured_response` returns the raw
text wrapped with the `format_error` marker instead of raising or
returning the failure dict. -/
theorem C9_format_error (env : Env) (q ctx fmt out : List Char)
    (hok : env.llm (structured_template ctx q fmt) = .ok out)
    (hparse : env.jsonParse out = none) :
    (generate_structured_response env q ctx fmt).1
      = .formatErrorResult out := by
  simp [generate_structured_response, hok, hparse]

/-- C9 witness: a concrete non-JSON LLM output. -/
theorem C9_witness :
    envNotJson.llm (structured_template (str "ctx") (str "q") (str "fmt"))
        = .ok (str "not json")
    ∧ envNotJson.jsonParse (str "not json") = none
    ∧ (generate_structured_response envNotJson (str "q") (str "ctx")
        (str "fmt")).1 = .formatErrorResult (str "not json") :=
  ⟨rfl, rfl,
   C9_format_error envNotJson (str "q") (str "ctx") (str "fmt")
     (str "not json") rfl rfl⟩

/-- Stripping an all-whitespace text leaves nothing. -/
theorem pyStrip_eq_nil (s : List Char) (h : ∀ c ∈ s, c.isWhitespace) :
    pyStrip s = [] := by
  unfold pyStrip
  rw [List.dropWhile_eq_nil_iff.mpr h]
  rfl

/-- C10: a question that is empty or whitespace-only is rejected with
`success = false`, the fixed answer, empty sources and confidence
`low`, with an empty capability-call trace — no retrieval happens and
the index is never touched. -/
theorem C10_blank_question (env : Env) (question : List Char)
    (h : ∀ c ∈ question, c.isWhitespace) :
    ask_question env question
      = ({ success := false
           answer := str "Please provide a valid question."
           sources := []
           confidence := "low" }, []) := by
  unfold ask_question
  rw [pyStrip_eq_nil question h]
  rfl

/-- C10 witness: a concrete whitespace-only question. -/
theorem C10_witness :
    (∀ c ∈ str "  \t  ", c.isWhitespace)
    ∧ ask_question envEmptySearch (str "  \t  ")
      = ({ success := false
           answer := str "Please provide a valid question."
           sources := []
           confidence := "low" }, []) :=
  ⟨by decide, C10_blank_question envEmptySearch (str "  \t  ") (by decide)⟩

end Banking
